import Mathlib

/-!
Shallow embedding of the orchestration core of the `vana-com/data-connectors`
repository: the pagination/dedup loops of the GitHub, X, ChatGPT and Spotify
connectors, the tiered extraction executor of the LinkedIn connector
(src/unnamed/part_001), the export-summary aggregators, the test-runner CLI
tail (src/test-connector.cjs) and the protocol-message stream of the GitHub
connector's main flow.

Browser I/O (`page.goto`, `page.evaluate`, `page.sleep`, ...) is modelled by
passing each loop the outcome that the page would have produced at every
iteration: a `fetch` function from the iteration's index (page number, offset,
scroll index) to the fetched batch, with a dedicated constructor for the
"the evaluate call threw" outcome wherever the source wraps the call in
`try/catch`.  Machine integers of the source are JavaScript numbers used only
as small counts, embedded as `Nat`.
-/

namespace DataConnectors

/-- Progress phase record as passed to `page.setProgress` by every connector:
`{ step, total, label }`. -/
structure Phase where
  step : Nat
  total : Nat
  label : String
deriving Repr, DecidableEq

/-- A progress update: `{ phase, message, count? }`.  `count = none` models a
`setProgress` call whose object literal has no `count` field. -/
structure Progress where
  phase : Phase
  message : String
  count : Option Nat
deriving Repr, DecidableEq

/-- The list of counts carried by a progress sequence (updates without a
`count` field contribute nothing). -/
def countsOf (l : List Progress) : List Nat :=
  l.filterMap Progress.count

/-- A GitHub repository item as pushed by the in-page extraction script of
`src/github/github-playwright.js` (`extractRepositories` / `extractStarred`)
and of `src/unnamed/part_000`.  Only the fields the orchestration core reads
are kept: `url` is the dedup key (`url = ""` models a missing / falsy `url`
field of the raw batch item); the remaining extracted fields (description,
language, stars, forks, visibility, topics, updatedAt) are opaque payload,
collapsed into `name`. -/
structure Repo where
  name : String
  url : String
deriving Repr, DecidableEq

/-- The value returned by the in-page script of one GitHub list page:
`{ list, hasNext }` (github-playwright.js lines 167-168). -/
structure RepoPage where
  list : List Repo
  hasNext : Bool
deriving Repr, DecidableEq

/-- Outcome of one `page.evaluate` that the source wraps in `try { ... }
catch { break }`: either the value, or `thrown` for the catch path. -/
inductive Fetch (α : Type) where
  | ok (val : α)
  | thrown
deriving Repr, DecidableEq

/-- Result of one GitHub paged extraction run: the accumulated items, the
seen-set of admitted keys, the emitted progress updates, and the number of
loop iterations performed (= number of page fetches). -/
structure GhResult where
  all : List Repo
  seen : List String
  progress : List Progress
  iterations : Nat
deriving Repr, DecidableEq

/-- Dedup admission loop of github-playwright.js lines 173-177 (identical at
lines 248-252, and in src/unnamed/part_000 lines 179-183 and 329-334):
`for (repo of pageItems) { if (!repo?.url || seen.has(repo.url)) continue;
seen.add(repo.url); all.push(repo); }`. -/
def admitRepos : List Repo → List String → List Repo → List String × List Repo
  | [], seen, all => (seen, all)
  | r :: rest, seen, all =>
    if r.url = "" ∨ r.url ∈ seen then
      admitRepos rest seen all
    else
      admitRepos rest (r.url :: seen) (all ++ [r])

/-- `maxPages` of github-playwright.js lines 118 and 199 (also part_000). -/
def maxPagesGh : Nat := 60

/-- The body of the `for (pageIndex = 1; pageIndex <= maxPages; pageIndex++)`
loop of github-playwright.js lines 120-191, generalized over the phase
constants and the progress-message noun because `extractRepositories`
(step 2/3, "repositories") and `extractStarred` (step 3/3, "starred
repositories") duplicate the same code.  `fuel` is the number of page indices
left before `maxPages` is exceeded; `fetch i` is the outcome of the
`page.evaluate` for page `i`. -/
def ghPagedGo (ph : Phase) (noun : String) (fetch : Nat → Fetch RepoPage) :
    Nat → Nat → List Repo → List String → GhResult
  | 0, _, all, seen => ⟨all, seen, [], 0⟩
  | fuel + 1, pageIndex, all, seen =>
    match fetch pageIndex with
    | .thrown => ⟨all, seen, [], 1⟩
    | .ok pg =>
      let st := admitRepos pg.list seen all
      let n := st.2.length
      let sfx := if pg.hasNext then "..." else ""
      let p : Progress := ⟨ph, s!"Fetched {n} {noun}{sfx}", some n⟩
      if !pg.hasNext || pg.list.isEmpty then
        ⟨st.2, st.1, [p], 1⟩
      else
        let rest := ghPagedGo ph noun fetch fuel (pageIndex + 1) st.2 st.1
        ⟨rest.all, rest.seen, p :: rest.progress, rest.iterations + 1⟩

/-- `extractRepositories` of github-playwright.js lines 115-194. -/
def extractRepositories (fetch : Nat → Fetch RepoPage) : GhResult :=
  ghPagedGo ⟨2, 3, "Repositories"⟩ "repositories" fetch maxPagesGh 1 [] []

/-- `extractStarred` of github-playwright.js lines 196-269. -/
def extractStarred (fetch : Nat → Fetch RepoPage) : GhResult :=
  ghPagedGo ⟨3, 3, "Starred"⟩ "starred repositories" fetch maxPagesGh 1 [] []

/-! ### X connector: `extractVisiblePosts` and the `extractPosts` scroll loop
(src/x/x-playwright.js lines 157-381) -/

/-- An X post as pushed by the in-page script of `extractVisiblePosts`
(x-playwright.js lines 280-295).  `id` is the dedup key (`id = ""` models a
missing / falsy `id` field); the other extracted fields (url, author, text,
metrics, media, ...) are opaque payload, collapsed into `text`. -/
structure Post where
  id : String
  text : String
deriving Repr, DecidableEq

/-- The `{ posts, error }` record that `extractVisiblePosts` returns
(x-playwright.js lines 308-318). -/
structure PostsResult where
  posts : List Post
  error : Option String
deriving Repr, DecidableEq

/-- Outcome of one `extractVisiblePosts` attempt, seen from outside the
`page.evaluate` boundary (x-playwright.js lines 157-319):
* `ok posts` — the in-page IIFE walked the DOM and returned
  `{ posts, error: null }`;
* `pageThrow msg` — the in-page `catch` fired and the IIFE returned
  `{ posts: [], error: String(err...) }` (lines 299-304);
* `nonObject` — the evaluate result was not an object (line 315);
* `evalThrow` — `page.evaluate` itself threw and the outer `catch`
  fired (lines 316-318). -/
inductive VisibleOutcome where
  | ok (posts : List Post)
  | pageThrow (msg : String)
  | nonObject
  | evalThrow
deriving Repr, DecidableEq

/-- `extractVisiblePosts` of x-playwright.js lines 157-319: every failure
mode is converted to an empty `posts` list with an `error` note; no
exception escapes the call (the codomain is a plain record, not an
exception monad).  `error := result.error || null` maps an empty error
string to `none`. -/
def extractVisiblePosts : VisibleOutcome → PostsResult
  | .ok ps => ⟨ps, none⟩
  | .pageThrow m => ⟨[], if m = "" then none else some m⟩
  | .nonObject => ⟨[], some "Unexpected evaluate result"⟩
  | .evalThrow => ⟨[], some "extractVisiblePosts wrapper failed"⟩

/-- `maxPosts` of x-playwright.js line 341. -/
def maxPosts : Nat := 120

/-- `maxScrolls` of x-playwright.js line 342. -/
def maxScrolls : Nat := 12

/-- Dedup admission loop of x-playwright.js lines 351-357:
`for (post of visible) { if (!post?.id || seen.has(post.id)) continue;
seen.add(post.id); all.push(post); added += 1;
if (all.length >= maxPosts) break; }`.
Returns the seen-set, the accumulator, and `added`. -/
def admitPosts : List Post → List String → List Post → Nat →
    List String × List Post × Nat
  | [], seen, all, added => (seen, all, added)
  | p :: rest, seen, all, added =>
    if p.id = "" ∨ p.id ∈ seen then
      admitPosts rest seen all added
    else
      let all' := all ++ [p]
      if maxPosts ≤ all'.length then
        (p.id :: seen, all', added + 1)
      else
        admitPosts rest (p.id :: seen) all' (added + 1)

/-- Result of one X scroll-collection run. -/
structure XResult where
  all : List Post
  seen : List String
  progress : List Progress
  iterations : Nat
deriving Repr, DecidableEq

/-- The `for (scrollIndex = 0; scrollIndex < maxScrolls; scrollIndex++)`
loop of x-playwright.js lines 345-374.  `src i` is the outcome of the
`extractVisiblePosts` call at scroll index `i`; `stagnant` is the
`stagnantScrolls` counter.  After each iteration: break if the accumulator
reached `maxPosts`; otherwise `stagnantScrolls` is incremented when the
iteration admitted nothing and reset to 0 otherwise, and the loop breaks
once it reaches 3. -/
def xGo (src : Nat → VisibleOutcome) :
    Nat → Nat → List Post → List String → Nat → XResult
  | 0, _, all, seen, _ => ⟨all, seen, [], 0⟩
  | fuel + 1, idx, all, seen, stagnant =>
    let vis := extractVisiblePosts (src idx)
    let st := admitPosts vis.posts seen all 0
    let n := st.2.1.length
    let noun := if n = 1 then "" else "s"
    let sfx := if n < maxPosts then "..." else ""
    let p : Progress := ⟨⟨2, 2, "Posts"⟩, s!"Captured {n} post{noun}{sfx}", some n⟩
    if maxPosts ≤ n then
      ⟨st.2.1, st.1, [p], 1⟩
    else
      let stagnant' := if st.2.2 = 0 then stagnant + 1 else 0
      if 3 ≤ stagnant' then
        ⟨st.2.1, st.1, [p], 1⟩
      else
        let rest := xGo src fuel (idx + 1) st.2.1 st.1 stagnant'
        ⟨rest.all, rest.seen, p :: rest.progress, rest.iterations + 1⟩

/-- `extractPosts` of x-playwright.js lines 321-381 (the scroll loop; the
preceding navigation and hydration probing emit no accumulator state). -/
def extractPosts (src : Nat → VisibleOutcome) : XResult :=
  xGo src maxScrolls 0 [] [] 0

/-! ### ChatGPT connector: `fetchConversationsList`
(src/openai/chatgpt-playwright.js lines 183-234) -/

/-- A conversation-list item as mapped by the in-page fetch (chatgpt line
208); the mapped fields are opaque payload, collapsed into `id`. -/
structure Conv where
  id : String
deriving Repr, DecidableEq

/-- One page of the conversations endpoint: `{ items, total }`.
`total = none` models a response whose `total` field is absent
(`data.total` undefined). -/
structure ConvPage where
  items : List Conv
  total : Option Nat
deriving Repr, DecidableEq

/-- Outcome of one in-page fetch of the conversations endpoint: the in-page
code returns `{ success: true, items, total }` or `{ success: false }`
(chatgpt lines 195-214); `!result?.success` breaks the loop. -/
inductive ChatFetch where
  | ok (pg : ConvPage)
  | fail
deriving Repr, DecidableEq

/-- `limit` of chatgpt-playwright.js line 186. -/
def chatLimit : Nat := 100

/-- Result of a `fetchConversationsList` run.  The source loop is
`while (true)` with no iteration ceiling, so the embedding is given `fuel`
iterations to run; `finished = true` iff the loop exited through one of its
`break` statements within `fuel` iterations. -/
structure ChatResult where
  all : List Conv
  progress : List Progress
  iterations : Nat
  finished : Bool
deriving Repr, DecidableEq

/-- The `while (true)` loop of chatgpt-playwright.js lines 188-231.
Stop conditions, checked after appending the batch and emitting progress:
`allConversations.length >= result.total` (false when `total` is absent,
true when `total` is 0) `|| result.items.length < limit`.  The progress
message renders `result.total || '?'`, so an absent or zero total prints
as `?` (`toLocaleString` is embedded as `toString`). -/
def chatGo (fetch : Nat → ChatFetch) : Nat → Nat → List Conv → ChatResult
  | 0, _, all => ⟨all, [], 0, false⟩
  | fuel + 1, offset, all =>
    match fetch offset with
    | .fail => ⟨all, [], 1, true⟩
    | .ok pg =>
      let all' := all ++ pg.items
      let n := all'.length
      let totalStr := match pg.total with
        | some t => if t = 0 then "?" else toString t
        | none => "?"
      let p : Progress :=
        ⟨⟨2, 3, "Fetching conversation list"⟩,
          s!"Loaded {n} of {totalStr} conversations...", some n⟩
      let stopTotal : Bool := match pg.total with
        | some t => t ≤ n
        | none => false
      if stopTotal || pg.items.length < chatLimit then
        ⟨all', [p], 1, true⟩
      else
        let rest := chatGo fetch fuel (offset + chatLimit) all'
        ⟨rest.all, p :: rest.progress, rest.iterations + 1, rest.finished⟩

/-- `fetchConversationsList` of chatgpt-playwright.js lines 183-234, run for
at most `fuel` iterations (the source itself has no such bound). -/
def fetchConversationsList (fetch : Nat → ChatFetch) (fuel : Nat) : ChatResult :=
  chatGo fetch fuel 0 []

/-- An adversarial conversations source: every fetch succeeds with a full
page of `limit` items and no `total` field.  Against it, neither of the
loop's stop conditions ever fires. -/
def chatAdversary : Nat → ChatFetch :=
  fun _ => .ok ⟨List.replicate chatLimit ⟨"conv"⟩, none⟩

/-! ### Spotify connector: the saved-tracks loop
(src/spotify/spotify-playwright.js lines 421-463) -/

/-- A track as read from one GraphQL library item: `item.track?.data` with
its `name`; a batch item whose `track.data` is absent is modelled by
`none`, and a present track whose `name` is falsy by `name = ""`. -/
structure Track where
  name : String
deriving Repr, DecidableEq

/-- One raw batch item of the saved-tracks page (`tracks.items` entry). -/
structure SpotItem where
  track : Option Track
deriving Repr, DecidableEq

/-- One saved-tracks page: `tracks = { items, totalCount }`.
`totalCount = 0` models both an absent and a zero `totalCount` — both are
falsy in the guard `tracks.totalCount && savedTracks.length >= totalCount`. -/
structure TracksPage where
  items : List SpotItem
  totalCount : Nat
deriving Repr, DecidableEq

/-- Outcome of one `gqlFetch('fetchLibraryTracks', ...)`:
`noTracks` models `!data?.data?.me?.library?.tracks`, which breaks. -/
inductive SpotFetch where
  | ok (pg : TracksPage)
  | noTracks
deriving Repr, DecidableEq

/-- Result of a Spotify saved-tracks run; like the ChatGPT loop the source is
`while (true)` with no iteration ceiling, so the embedding takes `fuel`. -/
structure SpotResult where
  all : List Track
  iterations : Nat
  finished : Bool
deriving Repr, DecidableEq

/-- Admission filter of spotify-playwright.js lines 436-451:
`const t = item.track?.data; if (!t || !t.name) continue;
savedTracks.push({...})` (the pushed record is collapsed into the track). -/
def admitTracks (items : List SpotItem) : List Track :=
  items.filterMap fun i =>
    match i.track with
    | none => none
    | some t => if t.name = "" then none else some t

/-- The `while (true)` loop of spotify-playwright.js lines 425-463.  Stop
conditions, checked after the batch: `items.length < limit ||
(tracks.totalCount && savedTracks.length >= tracks.totalCount)`
with `limit = 100` (line 423). -/
def spotGo (fetch : Nat → SpotFetch) : Nat → Nat → List Track → SpotResult
  | 0, _, all => ⟨all, 0, false⟩
  | fuel + 1, offset, all =>
    match fetch offset with
    | .noTracks => ⟨all, 1, true⟩
    | .ok pg =>
      let all' := all ++ admitTracks pg.items
      if pg.items.length < 100 || (pg.totalCount ≠ 0 && pg.totalCount ≤ all'.length) then
        ⟨all', 1, true⟩
      else
        let rest := spotGo fetch fuel (offset + 100) all'
        ⟨rest.all, rest.iterations + 1, rest.finished⟩

/-- The saved-tracks collection of spotify-playwright.js lines 421-463, run
for at most `fuel` iterations (the source itself has no such bound). -/
def spotifySavedTracks (fetch : Nat → SpotFetch) (fuel : Nat) : SpotResult :=
  spotGo fetch fuel 0 []

/-- An adversarial saved-tracks source: full 100-item pages with a falsy
`totalCount`; neither stop condition ever fires. -/
def spotAdversary : Nat → SpotFetch :=
  fun _ => .ok ⟨List.replicate 100 ⟨some ⟨"track"⟩⟩, 0⟩

/-! ### LinkedIn connector (src/unnamed/part_001): Voyager entity collection
and the tiered detail-page extraction executor -/

/-- A Voyager API entity (part_001).  `entityUrn = ""` models an entity with
no `entityUrn` field (falsy); every other field is opaque payload. -/
structure Entity where
  entityUrn : String
  payload : String
deriving Repr, DecidableEq

/-- A Voyager API response, reduced to its `included` entity array
(`resp?.data?.included || resp?.included || []`, part_001 line 796). -/
structure VoyagerResponse where
  included : List Entity
deriving Repr, DecidableEq

/-- Inner loop of `collectIncludedEntities` (part_001 lines 795-803):
`if (urn && seen.has(urn)) continue; if (urn) seen.add(urn);
entities.push(entity);`. -/
def collectGo : List Entity → List String → List Entity → List String × List Entity
  | [], seen, acc => (seen, acc)
  | e :: rest, seen, acc =>
    if e.entityUrn ≠ "" ∧ e.entityUrn ∈ seen then
      collectGo rest seen acc
    else
      collectGo rest
        (if e.entityUrn = "" then seen else e.entityUrn :: seen) (acc ++ [e])

/-- `collectIncludedEntities` of part_001 lines 792-805: collect entities of
all responses, dedup by `entityUrn`, keeping entities without an urn. -/
def collectIncludedEntities (resps : List VoyagerResponse) : List Entity :=
  (resps.foldl (fun st r => collectGo r.included st.1 st.2) ([], [])).2

/-- Method 3 tail of `extractDetailPageEntities` (part_001 lines 1006-1018):
the in-browser Voyager fetch runs only when a vanity name is available; if
its response is null the previously computed (empty) entity list is
returned.  The second component is the instrumentation trace of which
methods were invoked. -/
def detailMethod3 (cur : List Entity) (vanityName : Option String)
    (fetched : Option VoyagerResponse) : List Entity × List Nat :=
  match vanityName with
  | none => (cur, [1, 2])
  | some _ =>
    match fetched with
    | none => (cur, [1, 2, 3])
    | some d => (collectIncludedEntities [d], [1, 2, 3])

/-- `extractDetailPageEntities` of part_001 lines 993-1019, the tiered
extraction executor: method 1 = `<code>` elements, method 2 = captured
network response, method 3 = in-browser Voyager fetch.  Each strategy's
would-be product is an input; the effect of invoking a strategy is made
explicit as a trace (second component) listing the methods invoked, in
order.  The source returns as soon as a method yields a non-empty entity
list. -/
def extractDetailPageEntities (codeResponses : List VoyagerResponse)
    (captured : Option VoyagerResponse) (vanityName : Option String)
    (fetched : Option VoyagerResponse) : List Entity × List Nat :=
  let e1 := collectIncludedEntities codeResponses
  if 0 < e1.length then (e1, [1])
  else
    match captured with
    | some c =>
      let e2 := collectIncludedEntities [c]
      if 0 < e2.length then (e2, [1, 2])
      else detailMethod3 e2 vanityName fetched
    | none => detailMethod3 e1 vanityName fetched

/-- An experience record as pushed by `extractExperiencesFromDetailPage`
(part_001 lines 1186-1193); the parsed fields beyond the two the admission
guard reads are opaque. -/
structure Experience where
  jobTitle : String
  companyName : String
deriving Repr, DecidableEq

/-- The `try { ... } catch (err) { return []; }` wrapper of
`extractExperiencesFromDetailPage` (part_001 lines 1174-1261): the body —
the three extraction approaches, any of which may throw across the
`page.evaluate` boundary — is embedded as an `Except` outcome, and the
catch converts a thrown error into the empty experience list. -/
def extractExperiencesFromDetailPage
    (body : Except String (List Experience)) : List Experience :=
  match body with
  | .ok es => es
  | .error _ => []

/-! ### Result aggregation: `exportSummary` construction
(github-playwright.js lines 337-341, part_000 lines 423-427,
x-playwright.js lines 468-472) -/

/-- The `exportSummary` record of the final result envelope. -/
structure ExportSummary where
  count : Nat
  label : String
  details : String
deriving Repr, DecidableEq

/-- `exportSummary` of src/github/github-playwright.js lines 337-341: the
label is the constant string "items". -/
def githubExportSummary (repositories starred : List Repo) : ExportSummary :=
  let rn := repositories.length
  let sn := starred.length
  { count := rn + sn
    label := "items"
    details := s!"{rn} repositories, {sn} starred" }

/-- `exportSummary` of src/unnamed/part_000 lines 423-427: the label is
`totalItems === 1 ? "item" : "items"`. -/
def part000ExportSummary (repositories starred : List Repo) : ExportSummary :=
  let rn := repositories.length
  let sn := starred.length
  let totalItems := rn + sn
  { count := totalItems
    label := if totalItems = 1 then "item" else "items"
    details := s!"{rn} repositories, {sn} starred" }

/-- `exportSummary` of src/x/x-playwright.js lines 468-472: the label is
`state.posts.length === 1 ? 'post' : 'posts'`. -/
def xExportSummary (posts : List Post) : ExportSummary :=
  let n := posts.length
  { count := n
    label := if n = 1 then "post" else "posts"
    details := s!"{n} recent posts" }

/-! ### Test-runner CLI tail (src/test-connector.cjs lines 305-332) -/

/-- Observable behaviour of the tail of `main` in test-connector.cjs after
the worker child process exits. -/
structure CliTail where
  exitCode : Nat
  savedOutput : Bool
  printedNoResult : Bool
  printedDone : Bool
deriving Repr, DecidableEq

/-- Lines 305-332 of test-connector.cjs.  `childCode` is the child's exit
code (`none` models a null code; `resolve(code || 0)` maps it to 0);
`resultReceived` is whether a `result` protocol message was seen on the
child's stdout (`resultRef.data` non-null).  The result data is written to
the output path iff one was received, otherwise "No result data returned"
is printed; `process.exit(exitCode)` then exits with the child's code. -/
def cliFinish (childCode : Option Nat) (resultReceived : Bool) : CliTail :=
  let exitCode := childCode.getD 0
  { exitCode := exitCode
    savedOutput := resultReceived
    printedNoResult := !resultReceived
    printedDone := exitCode == 0 }

/-! ### Control-protocol message stream of the GitHub connector main flow
(src/github/github-playwright.js lines 271-357) -/

/-- A control-protocol message (spec section 6). -/
inductive Msg where
  | ready
  | status (s : String)
  | progress (p : Progress)
  | log (s : String)
  | data (key value : String)
  | result
  | error (msg : String)
deriving Repr, DecidableEq

/-- Modelled from the spec: the playwright-runner worker harness that turns a
connector's `page.setData(key, value)` calls into protocol lines is not under
src/ (it lives in the sidecar `playwright-runner`); per the spec's message
list (section 6) and lifecycle (`the ScopeEnvelope is finalized exactly once
before the result ControlMessage is emitted`, section 3), a `setData` with
key `result` carries the envelope as the `result` message, key `error` the
`error` message, key `status` a `status` message, and any other key a `data`
message.  The result payload is elided: the claims below concern only
message kinds and their order. -/
def setDataMsg (key value : String) : Msg :=
  if key = "result" then .result
  else if key = "error" then .error value
  else if key = "status" then .status value
  else .data key value

/-- Whether a message is one of the two terminal kinds (`result`/`error`). -/
def isTerminal : Msg → Bool
  | .result => true
  | .error _ => true
  | _ => false

/-- The sequence of protocol messages emitted by the main IIFE of
src/github/github-playwright.js (lines 271-357), as a function of the run's
outcomes: `firstLoggedIn` — the first `checkLoginStatus` (line 276);
`loginUsername` — the username of the login status in effect after the
conditional prompt (`login.username`, `none` for falsy); `resolved` — the
`resolveUsername()` fallback; `repoFetch`/`starFetch` — the page outcomes
driving the two pagination loops.  `page.promptUser`, `page.goto`,
`page.sleep`, `page.showBrowser`, `page.goHeadless` and `extractProfile`
emit no protocol messages.  On the success path the source emits the
`result` data and then one more `status` ("Complete! ...", lines 350-354). -/
def githubMainMsgs (firstLoggedIn : Bool) (loginUsername : Option String)
    (resolved : Option String) (repoFetch starFetch : Nat → Fetch RepoPage) :
    List Msg :=
  let username := match loginUsername with
    | some u => some u
    | none => resolved
  [setDataMsg "status" "Checking GitHub login..."]
  ++ (if firstLoggedIn then []
      else [setDataMsg "status" "Please log in to GitHub..."])
  ++ [setDataMsg "status" "Login confirmed. Collecting data in background...",
      Msg.progress ⟨⟨1, 3, "Profile"⟩, "Resolving account...", none⟩]
  ++ match username with
     | none => [setDataMsg "error" "Could not resolve GitHub username after login."]
     | some _ =>
       let repos := extractRepositories repoFetch
       let starred := extractStarred starFetch
       let rn := repos.all.length
       let sn := starred.all.length
       [Msg.progress ⟨⟨1, 3, "Profile"⟩, "Fetching profile...", none⟩,
        Msg.progress ⟨⟨2, 3, "Repositories"⟩, "Fetching repositories...", none⟩]
       ++ repos.progress.map Msg.progress
       ++ [Msg.progress ⟨⟨3, 3, "Starred"⟩, "Fetching starred repositories...", none⟩]
       ++ starred.progress.map Msg.progress
       ++ [setDataMsg "result" "ScopeEnvelope",
           setDataMsg "status"
             (s!"Complete! {rn} repositories and {sn} starred repos collected.")]

/-- A page source for which every GitHub list page is empty with no next
page: the pagination loops break after one iteration. -/
def constEmptyFetch : Nat → Fetch RepoPage :=
  fun _ => .ok ⟨[], false⟩

/-! ### Invariant predicates and concrete scenario inputs -/

/-- Loop invariant of the GitHub pagination accumulator: admitted urls are
pairwise distinct, recorded in the seen-set, and truthy. -/
def ghInv (seen : List String) (all : List Repo) : Prop :=
  (all.map Repo.url).Nodup ∧ ∀ r ∈ all, r.url ∈ seen ∧ r.url ≠ ""

/-- Loop invariant of the X scroll accumulator: admitted post ids are
pairwise distinct, recorded in the seen-set, and truthy. -/
def xInv (seen : List String) (all : List Post) : Prop :=
  (all.map Post.id).Nodup ∧ ∀ p ∈ all, p.id ∈ seen ∧ p.id ≠ ""

/-- Ten posts with pairwise distinct truthy ids. -/
def tenPosts : List Post :=
  [⟨"p1", "t"⟩, ⟨"p2", "t"⟩, ⟨"p3", "t"⟩, ⟨"p4", "t"⟩, ⟨"p5", "t"⟩,
   ⟨"p6", "t"⟩, ⟨"p7", "t"⟩, ⟨"p8", "t"⟩, ⟨"p9", "t"⟩, ⟨"p10", "t"⟩]

/-- A source that renders the same ten posts on every scroll iteration. -/
def xConstSrc : Nat → VisibleOutcome :=
  fun _ => .ok tenPosts

/-- The ten posts plus one more with a fresh id. -/
def elevenPosts : List Post :=
  tenPosts ++ [⟨"p11", "t"⟩]

/-- A source that renders the same ten posts on scroll iterations 0-2 and an
eleventh new post from iteration 3 on: iteration 3 admits one new item after
two stagnant iterations, exercising the stagnation-counter reset. -/
def xResetSrc : Nat → VisibleOutcome :=
  fun i => .ok (if i ≤ 2 then tenPosts else elevenPosts)

/-- Three entities with pairwise distinct urns. -/
def threeEntities : List Entity :=
  [⟨"urn:li:a", "pa"⟩, ⟨"urn:li:b", "pb"⟩, ⟨"urn:li:c", "pc"⟩]

/-- A captured network response holding the three entities: strategy B of
the C6 scenario. -/
def capturedThree : VoyagerResponse :=
  ⟨threeEntities⟩

/-! ### Helper lemmas -/

theorem ghPagedGo_iterations_le (ph : Phase) (noun : String)
    (fetch : Nat → Fetch RepoPage) :
    ∀ fuel pageIndex all seen,
      (ghPagedGo ph noun fetch fuel pageIndex all seen).iterations ≤ fuel := by
  intro fuel
  induction fuel with
  | zero => intro pageIndex all seen; simp [ghPagedGo]
  | succ k ih =>
    intro pageIndex all seen
    simp only [ghPagedGo]
    cases fetch pageIndex with
    | thrown => simp
    | ok pg =>
      by_cases h : (!pg.hasNext || pg.list.isEmpty) = true
      · simp [h]
      · simp only [h, if_false]
        exact Nat.succ_le_succ (ih (pageIndex + 1) _ _)

theorem xGo_iterations_le (src : Nat → VisibleOutcome) :
    ∀ fuel idx all seen stagnant,
      (xGo src fuel idx all seen stagnant).iterations ≤ fuel := by
  intro fuel
  induction fuel with
  | zero => intro idx all seen stagnant; simp [xGo]
  | succ k ih =>
    intro idx all seen stagnant
    simp only [xGo]
    by_cases h1 : maxPosts ≤ (admitPosts (extractVisiblePosts (src idx)).posts seen all 0).2.1.length
    · simp [h1]
    · simp only [h1, if_false]
      by_cases h2 : 3 ≤ (if (admitPosts (extractVisiblePosts (src idx)).posts seen all 0).2.2 = 0 then stagnant + 1 else 0)
      · simp [h2]
      · simp only [h2, if_false]
        exact Nat.succ_le_succ (ih _ _ _ _)

theorem chatGo_adversary_never_finishes :
    ∀ fuel offset all,
      (chatGo chatAdversary fuel offset all).finished = false ∧
      (chatGo chatAdversary fuel offset all).iterations = fuel := by
  intro fuel
  induction fuel with
  | zero => intro offset all; simp [chatGo]
  | succ k ih =>
    intro offset all
    simp only [chatGo, chatAdversary]
    have hlen : (List.replicate chatLimit (⟨"conv"⟩ : Conv)).length = chatLimit := by
      simp
    simp only [hlen]
    have hstop : ((false : Bool) || decide (chatLimit < chatLimit)) = false := by
      simp
    simp only [hstop, Bool.false_eq_true, if_false]
    exact ⟨(ih _ _).1, by rw [(ih _ _).2]⟩

theorem spotGo_adversary_never_finishes :
    ∀ fuel offset all,
      (spotGo spotAdversary fuel offset all).finished = false ∧
      (spotGo spotAdversary fuel offset all).iterations = fuel := by
  intro fuel
  induction fuel with
  | zero => intro offset all; simp [spotGo]
  | succ k ih =>
    intro offset all
    have hlt : ¬ (100 < 100) := by omega
    simp only [spotGo, spotAdversary, List.length_replicate, hlt]
    norm_num
    exact ⟨(ih _ _).1, (ih _ _).2⟩

theorem admitRepos_length_le :
    ∀ (l : List Repo) (seen : List String) (all : List Repo),
      all.length ≤ (admitRepos l seen all).2.length := by
  intro l
  induction l with
  | nil => intro seen all; simp [admitRepos]
  | cons r rest ih =>
    intro seen all
    simp only [admitRepos]
    by_cases h : r.url = "" ∨ r.url ∈ seen
    · rw [if_pos h]; exact ih seen all
    · rw [if_neg h]
      calc all.length ≤ (all ++ [r]).length := by simp
        _ ≤ _ := ih _ _

theorem admitRepos_ghInv :
    ∀ (l : List Repo) (seen : List String) (all : List Repo),
      ghInv seen all →
      ghInv (admitRepos l seen all).1 (admitRepos l seen all).2 := by
  intro l
  induction l with
  | nil => intro seen all h; simpa [admitRepos] using h
  | cons r rest ih =>
    intro seen all h
    simp only [admitRepos]
    by_cases hc : r.url = "" ∨ r.url ∈ seen
    · rw [if_pos hc]; exact ih seen all h
    · rw [if_neg hc]
      push_neg at hc
      obtain ⟨hnd, hmem⟩ := h
      refine ih _ _ ⟨?_, ?_⟩
      · simp only [List.map_append, List.map_cons, List.map_nil]
        rw [List.nodup_append]
        refine ⟨hnd, List.nodup_singleton _, ?_⟩
        intro a ha hb
        simp only [List.mem_singleton] at hb
        subst hb
        obtain ⟨x, hx, hxe⟩ := List.mem_map.mp ha
        exact hc.2 (hxe ▸ (hmem x hx).1)
      · intro x hx
        rcases List.mem_append.mp hx with hx | hx
        · exact ⟨List.mem_cons_of_mem _ (hmem x hx).1, (hmem x hx).2⟩
        · simp only [List.mem_singleton] at hx
          subst hx
          exact ⟨List.mem_cons_self _ _, hc.1⟩

theorem ghPagedGo_ghInv (ph : Phase) (noun : String)
    (fetch : Nat → Fetch RepoPage) :
    ∀ fuel pageIndex all seen, ghInv seen all →
      ghInv (ghPagedGo ph noun fetch fuel pageIndex all seen).seen
        (ghPagedGo ph noun fetch fuel pageIndex all seen).all := by
  intro fuel
  induction fuel with
  | zero => intro pageIndex all seen h; simpa [ghPagedGo] using h
  | succ k ih =>
    intro pageIndex all seen h
    cases hf : fetch pageIndex with
    | thrown => simpa [ghPagedGo, hf] using h
    | ok pg =>
      simp only [ghPagedGo, hf]
      by_cases hb : (!pg.hasNext || pg.list.isEmpty) = true
      · rw [if_pos hb]
        exact admitRepos_ghInv pg.list seen all h
      · rw [if_neg hb]
        exact ih _ _ _ (admitRepos_ghInv pg.list seen all h)

theorem ghPagedGo_counts (ph : Phase) (noun : String)
    (fetch : Nat → Fetch RepoPage) :
    ∀ fuel pageIndex all seen,
      List.Chain' (· ≤ ·)
        (countsOf (ghPagedGo ph noun fetch fuel pageIndex all seen).progress) ∧
      ∀ c ∈ countsOf (ghPagedGo ph noun fetch fuel pageIndex all seen).progress,
        all.length ≤ c := by
  intro fuel
  induction fuel with
  | zero => intro pageIndex all seen; simp [ghPagedGo, countsOf]
  | succ k ih =>
    intro pageIndex all seen
    cases hf : fetch pageIndex with
    | thrown => simp [ghPagedGo, hf, countsOf]
    | ok pg =>
      simp only [ghPagedGo, hf]
      by_cases hb : (!pg.hasNext || pg.list.isEmpty) = true
      · rw [if_pos hb]
        constructor
        · simp [countsOf]
        · intro c hc
          simp only [countsOf, List.filterMap_cons, List.filterMap_nil] at hc
          simp only [List.mem_singleton] at hc
          subst hc
          exact admitRepos_length_le _ _ _
      · rw [if_neg hb]
        obtain ⟨ihc, ihm⟩ := ih (pageIndex + 1) (admitRepos pg.list seen all).2
          (admitRepos pg.list seen all).1
        constructor
        · simp only [countsOf, List.filterMap_cons]
          rw [List.chain'_cons']
          refine ⟨?_, ihc⟩
          intro y hy
          exact ihm y (List.mem_of_mem_head? hy)
        · intro c hc
          simp only [countsOf, List.filterMap_cons, List.mem_cons] at hc
          rcases hc with hc | hc
          · subst hc; exact admitRepos_length_le _ _ _
          · exact le_trans (admitRepos_length_le _ _ _) (ihm c hc)

theorem ghPagedGo_phase (ph : Phase) (noun : String)
    (fetch : Nat → Fetch RepoPage) :
    ∀ fuel pageIndex all seen p,
      p ∈ (ghPagedGo ph noun fetch fuel pageIndex all seen).progress →
      p.phase = ph := by
  intro fuel
  induction fuel with
  | zero => intro pageIndex all seen p hp; simp [ghPagedGo] at hp
  | succ k ih =>
    intro pageIndex all seen p hp
    cases hf : fetch pageIndex with
    | thrown => simp [ghPagedGo, hf] at hp
    | ok pg =>
      simp only [ghPagedGo, hf] at hp
      by_cases hb : (!pg.hasNext || pg.list.isEmpty) = true
      · rw [if_pos hb] at hp
        simp only [List.mem_singleton] at hp
        subst hp; rfl
      · rw [if_neg hb] at hp
        simp only [List.mem_cons] at hp
        rcases hp with hp | hp
        · subst hp; rfl
        · exact ih _ _ _ p hp

theorem admitPosts_length_le :
    ∀ (l : List Post) (seen : List String) (all : List Post) (added : Nat),
      all.length ≤ (admitPosts l seen all added).2.1.length := by
  intro l
  induction l with
  | nil => intro seen all added; simp [admitPosts]
  | cons p rest ih =>
    intro seen all added
    simp only [admitPosts]
    by_cases h : p.id = "" ∨ p.id ∈ seen
    · rw [if_pos h]; exact ih seen all added
    · rw [if_neg h]
      by_cases hm : maxPosts ≤ (all ++ [p]).length
      · rw [if_pos hm]; simp
      · rw [if_neg hm]
        calc all.length ≤ (all ++ [p]).length := by simp
          _ ≤ _ := ih _ _ _

theorem admitPosts_xInv :
    ∀ (l : List Post) (seen : List String) (all : List Post) (added : Nat),
      xInv seen all →
      xInv (admitPosts l seen all added).1 (admitPosts l seen all added).2.1 := by
  intro l
  induction l with
  | nil => intro seen all added h; simpa [admitPosts] using h
  | cons p rest ih =>
    intro seen all added h
    simp only [admitPosts]
    by_cases hc : p.id = "" ∨ p.id ∈ seen
    · rw [if_pos hc]; exact ih seen all added h
    · rw [if_neg hc]
      push_neg at hc
      obtain ⟨hnd, hmem⟩ := h
      have hinv : xInv (p.id :: seen) (all ++ [p]) := by
        constructor
        · simp only [List.map_append, List.map_cons, List.map_nil]
          rw [List.nodup_append]
          refine ⟨hnd, List.nodup_singleton _, ?_⟩
          intro a ha hb
          simp only [List.mem_singleton] at hb
          subst hb
          obtain ⟨x, hx, hxe⟩ := List.mem_map.mp ha
          exact hc.2 (hxe ▸ (hmem x hx).1)
        · intro x hx
          rcases List.mem_append.mp hx with hx | hx
          · exact ⟨List.mem_cons_of_mem _ (hmem x hx).1, (hmem x hx).2⟩
          · simp only [List.mem_singleton] at hx
            subst hx
            exact ⟨List.mem_cons_self _ _, hc.1⟩
      by_cases hm : maxPosts ≤ (all ++ [p]).length
      · rw [if_pos hm]; exact hinv
      · rw [if_neg hm]; exact ih _ _ _ hinv

theorem xGo_xInv (src : Nat → VisibleOutcome) :
    ∀ fuel idx all seen stagnant, xInv seen all →
      xInv (xGo src fuel idx all seen stagnant).seen
        (xGo src fuel idx all seen stagnant).all := by
  intro fuel
  induction fuel with
  | zero => intro idx all seen stagnant h; simpa [xGo] using h
  | succ k ih =>
    intro idx all seen stagnant h
    simp only [xGo]
    by_cases h1 : maxPosts ≤
        (admitPosts (extractVisiblePosts (src idx)).posts seen all 0).2.1.length
    · rw [if_pos h1]
      exact admitPosts_xInv _ _ _ _ h
    · rw [if_neg h1]
      by_cases h2 : 3 ≤ (if (admitPosts (extractVisiblePosts (src idx)).posts seen all 0).2.2 = 0
          then stagnant + 1 else 0)
      · rw [if_pos h2]
        exact admitPosts_xInv _ _ _ _ h
      · rw [if_neg h2]
        exact ih _ _ _ _ (admitPosts_xInv _ _ _ _ h)

theorem xGo_counts (src : Nat → VisibleOutcome) :
    ∀ fuel idx all seen stagnant,
      List.Chain' (· ≤ ·)
        (countsOf (xGo src fuel idx all seen stagnant).progress) ∧
      ∀ c ∈ countsOf (xGo src fuel idx all seen stagnant).progress,
        all.length ≤ c := by
  intro fuel
  induction fuel with
  | zero => intro idx all seen stagnant; simp [xGo, countsOf]
  | succ k ih =>
    intro idx all seen stagnant
    simp only [xGo]
    by_cases h1 : maxPosts ≤
        (admitPosts (extractVisiblePosts (src idx)).posts seen all 0).2.1.length
    · rw [if_pos h1]
      constructor
      · simp [countsOf]
      · intro c hc
        simp only [countsOf, List.filterMap_cons, List.filterMap_nil,
          List.mem_singleton] at hc
        subst hc
        exact admitPosts_length_le _ _ _ _
    · rw [if_neg h1]
      by_cases h2 : 3 ≤ (if (admitPosts (extractVisiblePosts (src idx)).posts seen all 0).2.2 = 0
          then stagnant + 1 else 0)
      · rw [if_pos h2]
        constructor
        · simp [countsOf]
        · intro c hc
          simp only [countsOf, List.filterMap_cons, List.filterMap_nil,
            List.mem_singleton] at hc
          subst hc
          exact admitPosts_length_le _ _ _ _
      · rw [if_neg h2]
        obtain ⟨ihc, ihm⟩ := ih (idx + 1)
          (admitPosts (extractVisiblePosts (src idx)).posts seen all 0).2.1
          (admitPosts (extractVisiblePosts (src idx)).posts seen all 0).1
          (if (admitPosts (extractVisiblePosts (src idx)).posts seen all 0).2.2 = 0
            then stagnant + 1 else 0)
        constructor
        · simp only [countsOf, List.filterMap_cons]
          rw [List.chain'_cons']
          refine ⟨?_, ihc⟩
          intro y hy
          exact ihm y (List.mem_of_mem_head? hy)
        · intro c hc
          simp only [countsOf, List.filterMap_cons, List.mem_cons] at hc
          rcases hc with hc | hc
          · subst hc; exact admitPosts_length_le _ _ _ _
          · exact le_trans (admitPosts_length_le _ _ _ _) (ihm c hc)

theorem xGo_phase (src : Nat → VisibleOutcome) :
    ∀ fuel idx all seen stagnant p,
      p ∈ (xGo src fuel idx all seen stagnant).progress →
      p.phase = ⟨2, 2, "Posts"⟩ := by
  intro fuel
  induction fuel with
  | zero => intro idx all seen stagnant p hp; simp [xGo] at hp
  | succ k ih =>
    intro idx all seen stagnant p hp
    simp only [xGo] at hp
    by_cases h1 : maxPosts ≤
        (admitPosts (extractVisiblePosts (src idx)).posts seen all 0).2.1.length
    · rw [if_pos h1] at hp
      simp only [List.mem_singleton] at hp
      subst hp; rfl
    · rw [if_neg h1] at hp
      by_cases h2 : 3 ≤ (if (admitPosts (extractVisiblePosts (src idx)).posts seen all 0).2.2 = 0
          then stagnant + 1 else 0)
      · rw [if_pos h2] at hp
        simp only [List.mem_singleton] at hp
        subst hp; rfl
      · rw [if_neg h2] at hp
        simp only [List.mem_cons] at hp
        rcases hp with hp | hp
        · subst hp; rfl
        · exact ih _ _ _ _ p hp

theorem chatGo_counts (fetch : Nat → ChatFetch) :
    ∀ fuel offset all,
      List.Chain' (· ≤ ·) (countsOf (chatGo fetch fuel offset all).progress) ∧
      ∀ c ∈ countsOf (chatGo fetch fuel offset all).progress,
        all.length ≤ c := by
  intro fuel
  induction fuel with
  | zero => intro offset all; simp [chatGo, countsOf]
  | succ k ih =>
    intro offset all
    cases hf : fetch offset with
    | fail => simp [chatGo, hf, countsOf]
    | ok pg =>
      simp only [chatGo, hf]
      by_cases hb : ((match pg.total with
          | some t => decide (t ≤ (all ++ pg.items).length)
          | none => false) || decide (pg.items.length < chatLimit)) = true
      · rw [if_pos hb]
        constructor
        · simp [countsOf]
        · intro c hc
          simp only [countsOf, List.filterMap_cons, List.filterMap_nil,
            List.mem_singleton] at hc
          subst hc
          simp
      · rw [if_neg hb]
        obtain ⟨ihc, ihm⟩ := ih (offset + chatLimit) (all ++ pg.items)
        constructor
        · simp only [countsOf, List.filterMap_cons]
          rw [List.chain'_cons']
          refine ⟨?_, ihc⟩
          intro y hy
          exact ihm y (List.mem_of_mem_head? hy)
        · intro c hc
          simp only [countsOf, List.filterMap_cons, List.mem_cons] at hc
          rcases hc with hc | hc
          · subst hc; simp
          · calc all.length ≤ (all ++ pg.items).length := by simp
              _ ≤ c := ihm c hc

theorem chatGo_phase (fetch : Nat → ChatFetch) :
    ∀ fuel offset all p,
      p ∈ (chatGo fetch fuel offset all).progress →
      p.phase = ⟨2, 3, "Fetching conversation list"⟩ := by
  intro fuel
  induction fuel with
  | zero => intro offset all p hp; simp [chatGo] at hp
  | succ k ih =>
    intro offset all p hp
    cases hf : fetch offset with
    | fail => simp [chatGo, hf] at hp
    | ok pg =>
      simp only [chatGo, hf] at hp
      by_cases hb : ((match pg.total with
          | some t => decide (t ≤ (all ++ pg.items).length)
          | none => false) || decide (pg.items.length < chatLimit)) = true
      · rw [if_pos hb] at hp
        simp only [List.mem_singleton] at hp
        subst hp; rfl
      · rw [if_neg hb] at hp
        simp only [List.mem_cons] at hp
        rcases hp with hp | hp
        · subst hp; rfl
        · exact ih _ _ p hp

theorem setDataMsg_status (v : String) : setDataMsg "status" v = Msg.status v := by
  unfold setDataMsg
  rw [if_neg (by decide), if_neg (by decide), if_pos rfl]

theorem setDataMsg_error (v : String) : setDataMsg "error" v = Msg.error v := by
  unfold setDataMsg
  rw [if_neg (by decide), if_pos rfl]

theorem setDataMsg_result (v : String) : setDataMsg "result" v = Msg.result := by
  unfold setDataMsg
  rw [if_pos rfl]

theorem countP_isTerminal_map_progress (l : List Progress) :
    (l.map Msg.progress).countP isTerminal = 0 := by
  induction l with
  | nil => simp
  | cons p rest ih => simp [List.countP_cons, isTerminal, ih]

theorem countP_isTerminal_comp_progress (l : List Progress) :
    l.countP (isTerminal ∘ Msg.progress) = 0 := by
  induction l with
  | nil => simp
  | cons p rest ih => simp [List.countP_cons, isTerminal, Function.comp, ih]

theorem c2_tail_shape (s1 s3 sC : String) (ifpart mid1 mid2 : List Msg)
    (m0 p1 p2 p3 : Msg) :
    ∃ pre s', [Msg.status s1] ++ ifpart ++ [Msg.status s3, m0] ++
        ([p1, p2] ++ mid1 ++ [p3] ++ mid2 ++ [Msg.result, Msg.status sC]) =
      pre ++ [Msg.result, Msg.status s'] := by
  refine ⟨[Msg.status s1] ++ ifpart ++ [Msg.status s3, m0] ++
    ([p1, p2] ++ mid1 ++ [p3] ++ mid2), sC, ?_⟩
  simp [List.append_assoc]

theorem c2_tail_shape_error (s1 s3 eMsg : String) (ifpart : List Msg) (m0 : Msg) :
    ∃ pre e, [Msg.status s1] ++ ifpart ++ [Msg.status s3, m0] ++ [Msg.error eMsg] =
      pre ++ [Msg.error e] := by
  refine ⟨[Msg.status s1] ++ ifpart ++ [Msg.status s3, m0], eMsg, ?_⟩
  simp [List.append_assoc]

/-! ### Claim theorems -/

/-- C1, counterexample: the claim that every pagination loop performs at most
a fixed ceiling of iterations is false for the ChatGPT conversation-list
loop, which is `while (true)` with no iteration cap: against a source that
always returns a full 100-item page and reports no total, the loop is still
running after `maxPagesGh + 1 = 61` iterations — more than any iteration
ceiling appearing in the repository (60 pages, 12 scrolls, 20 load-mores). -/
theorem c1_hard_cap_counterexample :
    (fetchConversationsList chatAdversary (maxPagesGh + 1)).finished = false ∧
    (fetchConversationsList chatAdversary (maxPagesGh + 1)).iterations =
      maxPagesGh + 1 := by
  exact ⟨(chatGo_adversary_never_finishes _ _ _).1,
    (chatGo_adversary_never_finishes _ _ _).2⟩

/-- C1, amended: the pagination loops that declare an absolute
iteration-count ceiling do terminate within it regardless of the other stop
conditions — the GitHub repositories and starred loops within `maxPages = 60`
and the X posts loop within `maxScrolls = 12`, for every possible page
behaviour — but the ChatGPT conversation-list loop and the Spotify
saved-tracks loop have no such ceiling: against an adversarial source that
always returns a full page and never signals the end of data, they run for
any number of iterations. -/
theorem c1_hard_cap_amended :
    (∀ fetch, (extractRepositories fetch).iterations ≤ maxPagesGh) ∧
    (∀ fetch, (extractStarred fetch).iterations ≤ maxPagesGh) ∧
    (∀ src, (extractPosts src).iterations ≤ maxScrolls) ∧
    (∀ fuel, (fetchConversationsList chatAdversary fuel).finished = false) ∧
    (∀ fuel, (spotifySavedTracks spotAdversary fuel).finished = false) := by
  refine ⟨?_, ?_, ?_, ?_, ?_⟩
  · intro fetch; exact ghPagedGo_iterations_le _ _ _ _ _ _ _
  · intro fetch; exact ghPagedGo_iterations_le _ _ _ _ _ _ _
  · intro src; exact xGo_iterations_le _ _ _ _ _ _
  · intro fuel; exact (chatGo_adversary_never_finishes _ _ _).1
  · intro fuel; exact (spotGo_adversary_never_finishes _ _ _).1

/-- C5: for every pagination run of the GitHub repositories, GitHub starred
and X posts loops, the final accumulated sequence contains no two items with
the same dedup key (repository URL, post id): the key sequence of the result
is duplicate-free whatever the source returns on each iteration. -/
theorem c5_dedup_no_duplicate_keys :
    (∀ fetch, ((extractRepositories fetch).all.map Repo.url).Nodup) ∧
    (∀ fetch, ((extractStarred fetch).all.map Repo.url).Nodup) ∧
    (∀ src, ((extractPosts src).all.map Post.id).Nodup) := by
  have hgh : ghInv [] [] := by simp [ghInv]
  have hx : xInv [] [] := by simp [xInv]
  exact ⟨fun fetch => (ghPagedGo_ghInv _ _ _ _ _ _ _ hgh).1,
    fun fetch => (ghPagedGo_ghInv _ _ _ _ _ _ _ hgh).1,
    fun src => (xGo_xInv _ _ _ _ _ _ hx).1⟩

/-- C10: every item admitted to a pagination accumulator has a truthy dedup
key — the GitHub loops skip batch items with a falsy `url` and the X loop
skips batch items with a falsy `id` (and the part_000 starred loop runs the
byte-identical admission code embedded as `admitRepos`), so every item of a
returned sequence carries a non-empty key. -/
theorem c10_admitted_keys_truthy :
    (∀ fetch, (extractRepositories fetch).all.all (fun r => !(r.url == "")) = true) ∧
    (∀ fetch, (extractStarred fetch).all.all (fun r => !(r.url == "")) = true) ∧
    (∀ src, (extractPosts src).all.all (fun p => !(p.id == "")) = true) := by
  have hgh : ghInv [] [] := by simp [ghInv]
  have hx : xInv [] [] := by simp [xInv]
  refine ⟨?_, ?_, ?_⟩
  · intro fetch
    rw [List.all_eq_true]
    intro r hr
    have := ((ghPagedGo_ghInv _ _ _ _ _ _ _ hgh).2 r hr).2
    simpa using this
  · intro fetch
    rw [List.all_eq_true]
    intro r hr
    have := ((ghPagedGo_ghInv _ _ _ _ _ _ _ hgh).2 r hr).2
    simpa using this
  · intro src
    rw [List.all_eq_true]
    intro p hp
    have := ((xGo_xInv _ _ _ _ _ _ hx).2 p hp).2
    simpa using this

/-- C9: within each of the cited collection loops (X posts, ChatGPT
conversation list, GitHub repositories and starred), the counts carried by
the emitted progress sequence are non-decreasing from one update to the
next, and every update's phase satisfies `1 ≤ step ≤ total`. -/
theorem c9_progress_monotone_and_bounded :
    (∀ fetch,
      List.Chain' (· ≤ ·) (countsOf (extractRepositories fetch).progress) ∧
      (extractRepositories fetch).progress.all
        (fun p => decide (1 ≤ p.phase.step) && decide (p.phase.step ≤ p.phase.total)) = true) ∧
    (∀ fetch,
      List.Chain' (· ≤ ·) (countsOf (extractStarred fetch).progress) ∧
      (extractStarred fetch).progress.all
        (fun p => decide (1 ≤ p.phase.step) && decide (p.phase.step ≤ p.phase.total)) = true) ∧
    (∀ src,
      List.Chain' (· ≤ ·) (countsOf (extractPosts src).progress) ∧
      (extractPosts src).progress.all
        (fun p => decide (1 ≤ p.phase.step) && decide (p.phase.step ≤ p.phase.total)) = true) ∧
    (∀ fetch fuel,
      List.Chain' (· ≤ ·) (countsOf (fetchConversationsList fetch fuel).progress) ∧
      (fetchConversationsList fetch fuel).progress.all
        (fun p => decide (1 ≤ p.phase.step) && decide (p.phase.step ≤ p.phase.total)) = true) := by
  refine ⟨?_, ?_, ?_, ?_⟩
  · intro fetch
    refine ⟨(ghPagedGo_counts _ _ _ _ _ _ _).1, ?_⟩
    rw [List.all_eq_true]
    intro p hp
    rw [ghPagedGo_phase _ _ _ _ _ _ _ p hp]
    decide
  · intro fetch
    refine ⟨(ghPagedGo_counts _ _ _ _ _ _ _).1, ?_⟩
    rw [List.all_eq_true]
    intro p hp
    rw [ghPagedGo_phase _ _ _ _ _ _ _ p hp]
    decide
  · intro src
    refine ⟨(xGo_counts _ _ _ _ _ _).1, ?_⟩
    rw [List.all_eq_true]
    intro p hp
    rw [xGo_phase _ _ _ _ _ _ p hp]
    decide
  · intro fetch fuel
    refine ⟨(chatGo_counts _ _ _ _).1, ?_⟩
    rw [List.all_eq_true]
    intro p hp
    rw [chatGo_phase _ _ _ _ p hp]
    decide

/-- C8: against a source that renders the same ten posts on every scroll
iteration, the X collection loop admits the ten posts on the first
iteration, then observes three consecutive stagnant iterations and stops:
4 iterations in total — well below `maxScrolls` — with exactly the ten
accumulated posts.  Against a source that introduces an eleventh post on
iteration 3 (after two stagnant iterations), the stagnation counter is reset
by that admission and the loop runs 7 iterations before three fresh
stagnant iterations stop it, with 11 accumulated posts. -/
theorem c8_stagnant_stop_scenario :
    (extractPosts xConstSrc).all = tenPosts ∧
    (extractPosts xConstSrc).iterations = 4 ∧
    (extractPosts xConstSrc).iterations < maxScrolls ∧
    (extractPosts xResetSrc).all = elevenPosts ∧
    (extractPosts xResetSrc).iterations = 7 := by
  refine ⟨by decide, by decide, by decide, by decide, by decide⟩

/-- C6: the tiered detail-page extraction executor tries its three methods
strictly in order — its invocation trace is always `[1]`, `[1, 2]` or
`[1, 2, 3]` — and, in the claim's scenario (method 1 yields nothing, the
captured network response yields 3 entities), it returns exactly those 3
entities with trace `[1, 2]`: method 3 is never invoked, whatever its
inputs would have been. -/
theorem c6_tiered_first_success :
    (∀ codeResponses captured vanityName fetched,
      ∃ k, k ≤ 3 ∧
        (extractDetailPageEntities codeResponses captured vanityName fetched).2 =
          List.range' 1 k) ∧
    (∀ vanityName fetched,
      extractDetailPageEntities [] (some capturedThree) vanityName fetched =
        (threeEntities, [1, 2]) ∧
      (extractDetailPageEntities [] (some capturedThree) vanityName fetched).2.length = 2) := by
  constructor
  · intro code captured vanity fetched
    cases captured with
    | some c =>
      simp only [extractDetailPageEntities]
      by_cases h1 : 0 < (collectIncludedEntities code).length
      · rw [if_pos h1]
        exact ⟨1, by omega, rfl⟩
      · rw [if_neg h1]
        by_cases h2 : 0 < (collectIncludedEntities [c]).length
        · rw [if_pos h2]
          exact ⟨2, by omega, rfl⟩
        · rw [if_neg h2]
          cases vanity with
          | none => exact ⟨2, by omega, rfl⟩
          | some v =>
            cases fetched with
            | none => exact ⟨3, by omega, rfl⟩
            | some d => exact ⟨3, by omega, rfl⟩
    | none =>
      simp only [extractDetailPageEntities]
      by_cases h1 : 0 < (collectIncludedEntities code).length
      · rw [if_pos h1]
        exact ⟨1, by omega, rfl⟩
      · rw [if_neg h1]
        cases vanity with
        | none => exact ⟨2, by omega, rfl⟩
        | some v =>
          cases fetched with
          | none => exact ⟨3, by omega, rfl⟩
          | some d => exact ⟨3, by omega, rfl⟩
  · intro vanity fetched
    exact ⟨rfl, rfl⟩

/-- C7: a thrown error inside an extraction strategy is caught and treated
like an empty result: every failure mode of `extractVisiblePosts` yields
`posts = []` (with an error note), the `catch` of
`extractExperiencesFromDetailPage` converts a thrown body into `[]`, and a
collection run whose every strategy invocation throws terminates normally
with an empty accumulator (after 3 stagnant iterations) instead of aborting
— no exception propagates out of the extraction call. -/
theorem c7_strategy_errors_contained :
    (∀ m, (extractVisiblePosts (.pageThrow m)).posts = []) ∧
    ((extractVisiblePosts .evalThrow).posts = []) ∧
    ((extractVisiblePosts .nonObject).posts = []) ∧
    (∀ e, extractExperiencesFromDetailPage (.error e) = []) ∧
    ((extractPosts (fun _ => .evalThrow)).all = [] ∧
      (extractPosts (fun _ => .evalThrow)).iterations = 3) := by
  exact ⟨fun m => rfl, rfl, rfl, fun e => rfl, by decide, by decide⟩

/-- C4, counterexample: in the github-playwright.js connector the
`exportSummary.label` is not a singular/plural noun chosen by the count:
at count 1 (one repository, no starred) the label is the same constant
`"items"` as at count 2, so it is not the singular form at count 1 — no
pair of distinct singular/plural forms can describe this connector. -/
theorem c4_label_counterexample :
    (githubExportSummary [⟨"a", "u1"⟩] []).count = 1 ∧
    (githubExportSummary [⟨"a", "u1"⟩] []).label = "items" ∧
    (githubExportSummary [⟨"a", "u1"⟩, ⟨"b", "u2"⟩] []).count = 2 ∧
    (githubExportSummary [⟨"a", "u1"⟩] []).label =
      (githubExportSummary [⟨"a", "u1"⟩, ⟨"b", "u2"⟩] []).label := by
  exact ⟨rfl, rfl, rfl, rfl⟩

/-- C4, amended: the part_000 GitHub connector and the X connector do choose
the `exportSummary.label` by the count — `"item"`/`"items"` and
`"post"`/`"posts"` with the singular exactly at count 1 — but the
github-playwright.js connector uses the constant plural label `"items"`
regardless of the count. -/
theorem c4_label_amended :
    (∀ repositories starred : List Repo,
      (part000ExportSummary repositories starred).label =
        (if (part000ExportSummary repositories starred).count = 1
          then "item" else "items")) ∧
    (∀ posts : List Post,
      (xExportSummary posts).label =
        (if (xExportSummary posts).count = 1 then "post" else "posts")) ∧
    (∀ repositories starred : List Repo,
      (githubExportSummary repositories starred).label = "items") := by
  exact ⟨fun r s => rfl, fun p => rfl, fun r s => rfl⟩

/-- C3, counterexample: the test-runner CLI's exit code is not `0 iff a
result message was received`: a worker child that exits 0 without ever
sending a result still makes the CLI exit 0 — the "No result data returned"
failure is only printed, and the claimed non-zero exit does not happen. -/
theorem c3_exit_code_counterexample :
    (cliFinish (some 0) false).exitCode = 0 ∧
    (cliFinish (some 0) false).savedOutput = false ∧
    (cliFinish (some 0) false).printedNoResult = true ∧
    (cliFinish (some 1) true).exitCode = 1 := by
  exact ⟨rfl, rfl, rfl, rfl⟩

/-- C3, amended: the CLI's exit code equals the worker child's exit code
(a null code mapped to 0) and is independent of whether a result message was
received; a missing result is reported only by printing "No result data
returned", and the result JSON is written to the output path exactly when a
result was received. -/
theorem c3_exit_code_amended :
    ∀ (childCode : Option Nat) (resultReceived : Bool),
      (cliFinish childCode resultReceived).exitCode = childCode.getD 0 ∧
      (cliFinish childCode true).exitCode = (cliFinish childCode false).exitCode ∧
      (cliFinish childCode resultReceived).savedOutput = resultReceived ∧
      (cliFinish childCode resultReceived).printedNoResult = !resultReceived := by
  intro c r
  exact ⟨rfl, rfl, rfl, rfl⟩

/-- C2, counterexample: on the success path of the GitHub connector's main
flow the last protocol message before exit is not the terminal `result`: the
source emits one more `status` ("Complete! ...") after the result emission,
so the stream for a concrete successful run contains `result` but ends in a
non-terminal message. -/
theorem c2_terminal_last_counterexample :
    Msg.result ∈ githubMainMsgs true (some "u") none constEmptyFetch constEmptyFetch ∧
    (githubMainMsgs true (some "u") none constEmptyFetch constEmptyFetch).getLast?.map
      isTerminal = some false := by
  exact ⟨by decide, by decide⟩

/-- C2, amended: in the GitHub connector's main flow the stream carries
exactly one terminal message, but it is not the final line on the success
path: every run emits either a stream ending in the single `error` message,
or a stream in which the single `result` message is followed by exactly one
trailing completion `status` message; all other status/progress/data
messages appear before the terminal message.  (The playwright-runner mapping
from `setData` keys to protocol message kinds is modelled from the spec; the
emission order is the source's.) -/
theorem c2_terminal_message_amended :
    ∀ (firstLoggedIn : Bool) (loginUsername resolved : Option String)
      (repoFetch starFetch : Nat → Fetch RepoPage),
      ((githubMainMsgs firstLoggedIn loginUsername resolved repoFetch
        starFetch).countP isTerminal = 1) ∧
      ((∃ pre s, githubMainMsgs firstLoggedIn loginUsername resolved repoFetch
          starFetch = pre ++ [Msg.result, Msg.status s]) ∨
       (∃ pre e, githubMainMsgs firstLoggedIn loginUsername resolved repoFetch
          starFetch = pre ++ [Msg.error e])) := by
  intro f lu res rf sf
  have hif : (if f then ([] : List Msg)
      else [Msg.status "Please log in to GitHub..."]).countP isTerminal = 0 := by
    cases f <;> simp [isTerminal]
  cases lu with
  | some u =>
    simp only [githubMainMsgs, setDataMsg_status, setDataMsg_result, setDataMsg_error]
    constructor
    · simp [List.countP_append, List.countP_cons, isTerminal,
        countP_isTerminal_map_progress, countP_isTerminal_comp_progress, hif]
    · exact Or.inl (c2_tail_shape _ _ _ _ _ _ _ _ _ _)
  | none =>
    cases res with
    | some v =>
      simp only [githubMainMsgs, setDataMsg_status, setDataMsg_result, setDataMsg_error]
      constructor
      · simp [List.countP_append, List.countP_cons, isTerminal,
          countP_isTerminal_map_progress, countP_isTerminal_comp_progress, hif]
      · exact Or.inl (c2_tail_shape _ _ _ _ _ _ _ _ _ _)
    | none =>
      simp only [githubMainMsgs, setDataMsg_status, setDataMsg_result, setDataMsg_error]
      constructor
      · simp [List.countP_append, List.countP_cons, isTerminal, hif]
      · exact Or.inr (c2_tail_shape_error _ _ _ _ _)

end DataConnectors
